import Mathlib

/-!
Verification of the membership-resolution subsystem of the lunaplugin
repository (plugins/multipleplaylists and the playlistmembership variant).

The definitions below are a shallow embedding of the TypeScript source:
  - `checkSongInUserPlaylists` / `checkSongInUserPlaylistsByMeta` from
    playlistMembershipUtils.ts,
  - the resolver (`getMembership` / `enqueueMembership`) modelled as an
    explicit state-transition system (`callStep` / `settleStep`),
  - the recently-added overlay (`rememberRecentlyAdded` plus its expiry
    timer callback),
  - the row-annotation entry point `processTrackRow` with its
    `getTrackIdFromRow` extraction,
  - the orchestrator `addToSelectedPlaylists`.

JavaScript `Map` objects are embedded as association lists with
set/get/delete operations that keep keys unique; JS `Set` objects as
duplicate-free lists.  Host-side effects that can fail (redux state read,
the Playlist API fallback, per-playlist item fetches, action dispatch,
the song-title fetch) are supplied through explicit environment records
using `Except` for fallible calls.  The single-threaded event-loop
semantics of the source lets each synchronous section (a `getMembership`
call up to its first suspension, and the microtask batch that runs when a
lookup settles) be modelled as one atomic step.
-/

namespace LunaPlugin

/-- Association-list embedding of JS `Map.get`. -/
def mapGet {α : Type} (m : List (String × α)) (k : String) : Option α :=
  match m with
  | [] => none
  | (k1, v) :: rest => if k1 = k then some v else mapGet rest k

/-- Association-list embedding of JS `Map.set` (overwrite or append). -/
def mapSet {α : Type} (m : List (String × α)) (k : String) (v : α) :
    List (String × α) :=
  match m with
  | [] => [(k, v)]
  | (k1, v1) :: rest =>
    if k1 = k then (k, v) :: rest else (k1, v1) :: mapSet rest k v

/-- Association-list embedding of JS `Map.delete`.  Keys are unique under
`mapSet`, so removing every pair with the key is the same operation. -/
def mapDelete {α : Type} (m : List (String × α)) (k : String) :
    List (String × α) :=
  m.filter (fun p => p.1 ≠ k)

/-- JS `Set.add` on a duplicate-free list (no-op when already present). -/
def setAdd (s : List String) (x : String) : List String :=
  if x ∈ s then s else s ++ [x]

/-! ## Data model: membership results and the playlist environment -/

/-- `{ uuid, title }` entries of a `SongInPlaylistsResult`. -/
structure PlaylistRef where
  uuid : String
  title : String
deriving DecidableEq, Repr

/-- The `SongInPlaylistsResult` type from playlistMembershipUtils.ts. -/
structure SongInPlaylistsResult where
  existsInPlaylists : Bool
  playlists : List PlaylistRef
deriving DecidableEq, Repr

/-- A playlist object as read from the redux store or the Playlist API:
`uuid`, optional `title`, `type`, and `creator?.id`. -/
structure PlaylistObj where
  uuid : String
  title : Option String
  type : String
  creatorId : Option String
deriving DecidableEq, Repr

/-- One playlist entry after the `it?.item ?? it` unwrap.  The candidate
identifier fields hold the `String(v)` image of the JS value, `none`
standing for `undefined`/`null`; `title` and the resolved primary artist
name (`entry?.artist?.name ?? entry?.artists[0]?.name`) feed the metadata
fallback. -/
structure ItemEntry where
  id : Option String
  mediaItemId : Option String
  trackId : Option String
  itemId : Option String
  productId : Option String
  title : Option String
  artistName : Option String
deriving DecidableEq, Repr

/-- The snapshot obtained from `redux.store.getState()`:
`state.user?.meta?.id` and `Object.values(state.content?.playlists ?? {})`. -/
structure ReduxState where
  currentUserId : Option String
  playlists : List PlaylistObj
deriving Repr

/-- Host environment consumed by the membership lookup.  Fallible host
calls are `Except` values: `getState` models `redux.store.getState()`
(which can throw if the host API shape changed), `getUserPlaylistsApi` and
`getMyPlaylistsApi` model the optional `Playlist.getUserPlaylists` /
`Playlist.getMyPlaylists` helpers (`none` when the function is absent),
and `playlistItems` models `TidalApi.playlistItems(pl.uuid)`. -/
structure Env where
  getState : Except String ReduxState
  getUserPlaylistsApi : Option (Except String (List PlaylistObj))
  getMyPlaylistsApi : Option (Except String (List PlaylistObj))
  playlistItems : String → Except String (List ItemEntry)

/-- The `candidates.map(normalize).some(cid => cid !== undefined && cid === needle)`
test of checkSongInUserPlaylists for a single entry. -/
def entryMatchesId (e : ItemEntry) (songId : String) : Bool :=
  [e.id, e.mediaItemId, e.trackId, e.itemId, e.productId].any
    (fun c => c = some songId)

/-- The playlist-acquisition prefix shared by both membership checks:
filter the redux playlists to `type === "USER" && creator?.id === currentUserId`
and, when that yields nothing, fall back to the Playlist API helpers
(whose errors are caught, leaving the empty list). -/
def acquireUserPlaylists (env : Env) (st : ReduxState) (uid : String) :
    List PlaylistObj :=
  let reduxPls := st.playlists.filter
    (fun pl => pl.type = "USER" && pl.creatorId = some uid)
  if reduxPls.isEmpty then
    match env.getUserPlaylistsApi with
    | some (Except.ok arr) => arr
    | some (Except.error _) => []
    | none =>
      match env.getMyPlaylistsApi with
      | some (Except.ok arr) => arr
      | some (Except.error _) => []
      | none => []
  else reduxPls

/-- The `Promise.all` collection loop shared by both membership checks:
for each playlist fetch its items (a fetch error is caught and the
playlist skipped) and keep the playlist when any entry satisfies the
match predicate. -/
def collectContaining (env : Env) (matchFn : ItemEntry → Bool)
    (pls : List PlaylistObj) : List PlaylistRef :=
  pls.filterMap (fun pl =>
    match env.playlistItems pl.uuid with
    | Except.error _ => none
    | Except.ok items =>
      if items.any matchFn then
        some { uuid := pl.uuid, title := pl.title.getD "Untitled Playlist" }
      else none)

/-- Body of the `try` block of checkSongInUserPlaylists: read the state,
fail safe to the empty result when the current user is undetermined,
acquire the user playlists, and collect every playlist whose fetched items
contain the song id (per-playlist fetch errors are caught and the playlist
skipped). -/
def checkSongBody (env : Env) (songId : String) :
    Except String SongInPlaylistsResult :=
  match env.getState with
  | Except.error e => Except.error e
  | Except.ok st =>
    match st.currentUserId with
    | none => Except.ok { existsInPlaylists := false, playlists := [] }
    | some uid =>
      let userPlaylists := acquireUserPlaylists env st uid
      if userPlaylists.isEmpty then
        Except.ok { existsInPlaylists := false, playlists := [] }
      else
        let containing := collectContaining env
          (fun it => entryMatchesId it songId) userPlaylists
        Except.ok { existsInPlaylists := !containing.isEmpty,
                    playlists := containing }

/-- checkSongInUserPlaylists: the body wrapped in the outer
`try ... catch` whose handler returns the empty result. -/
def checkSongInUserPlaylists (env : Env) (songId : String) :
    SongInPlaylistsResult :=
  match checkSongBody env songId with
  | Except.ok r => r
  | Except.error _ => { existsInPlaylists := false, playlists := [] }

/-- The promise outcome of the `async` checkSongInUserPlaylists: the whole
body sits inside `try`, and the `catch` clause returns the safe empty
result instead of rethrowing, so the promise always fulfills. -/
def checkSongInUserPlaylistsAsync (env : Env) (songId : String) :
    Except String SongInPlaylistsResult :=
  match checkSongBody env songId with
  | Except.ok r => Except.ok r
  | Except.error _ =>
    Except.ok { existsInPlaylists := false, playlists := [] }

/-! Metadata normalisation used by checkSongInUserPlaylistsByMeta:
lower-case, collapse whitespace runs to one space, drop characters that
are neither alphanumeric nor whitespace, then trim. -/

/-- The whitespace class of the source regex (ASCII whitespace plus
non-breaking space). -/
def isWsChar (c : Char) : Bool :=
  c = ' ' || c = '\t' || c = '\n' || c = '\r' || c.val = 11 || c.val = 12 ||
  c.val = 160

/-- Replace each maximal whitespace run by a single space; the flag is
true when the previous kept character was such a replacement. -/
def collapseWsAux : Bool → List Char → List Char
  | _, [] => []
  | prevWs, c :: rest =>
    if isWsChar c then
      if prevWs then collapseWsAux true rest
      else ' ' :: collapseWsAux true rest
    else c :: collapseWsAux false rest

/-- `String(s ?? "").toLowerCase().replace(ws, " ").replace(nonAlnum, "").trim()`. -/
def normalizeMeta (s : String) : String :=
  let cs := (s.data.map Char.toLower)
  let cs := collapseWsAux false cs
  let cs := cs.filter (fun c => c.isAlphanum || c = ' ')
  let cs := (cs.dropWhile (fun c => c = ' ')).reverse
  let cs := (cs.dropWhile (fun c => c = ' ')).reverse
  String.mk cs

/-- Per-entry test of the metadata fallback: normalized title must match,
and when a target artist is supplied the normalized artist name must match
too; an empty normalized target title never matches. -/
def entryMatchesMeta (e : ItemEntry) (targetTitle targetArtist : String) :
    Bool :=
  let eTitle := normalizeMeta (e.title.getD "")
  let eArtist := normalizeMeta (e.artistName.getD "")
  if targetTitle = "" then false
  else if targetArtist ≠ "" then
    eTitle = targetTitle && eArtist = targetArtist
  else eTitle = targetTitle

/-- Body of the `try` block of checkSongInUserPlaylistsByMeta. -/
def checkSongByMetaBody (env : Env) (title : String) (artist : Option String) :
    Except String SongInPlaylistsResult :=
  match env.getState with
  | Except.error e => Except.error e
  | Except.ok st =>
    match st.currentUserId with
    | none => Except.ok { existsInPlaylists := false, playlists := [] }
    | some uid =>
      let userPlaylists := acquireUserPlaylists env st uid
      if userPlaylists.isEmpty then
        Except.ok { existsInPlaylists := false, playlists := [] }
      else
        let targetTitle := normalizeMeta title
        let targetArtist := match artist with
          | some a => normalizeMeta a
          | none => ""
        let containing := collectContaining env
          (fun it => entryMatchesMeta it targetTitle targetArtist) userPlaylists
        Except.ok { existsInPlaylists := !containing.isEmpty,
                    playlists := containing }

/-- checkSongInUserPlaylistsByMeta with its outer `try ... catch`. -/
def checkSongInUserPlaylistsByMeta (env : Env) (title : String)
    (artist : Option String) : SongInPlaylistsResult :=
  match checkSongByMetaBody env title artist with
  | Except.ok r => r
  | Except.error _ => { existsInPlaylists := false, playlists := [] }

/-! ## The membership resolver as a state-transition system

`getMembership` together with `enqueueMembership` maintain module-level
state: `membershipResultCache`, `membershipInFlight`, `inFlightCount` and
`membershipQueue`.  Because the page is single-threaded, the synchronous
prefix of a `getMembership` call (cache probe, in-flight probe, admission
through the gate, `membershipInFlight.set`) is one atomic step, and the
microtask batch that runs when an underlying lookup settles (optional
`membershipResultCache.set`, `inFlightCount--`, admission of the queue
head, `membershipInFlight.delete`) is another. -/

/-- `MAX_CONCURRENT_MEMBERSHIP`. -/
def MAX_CONCURRENT_MEMBERSHIP : Nat := 5

/-- One membership computation created by `getMembership`: the promise
built from `enqueueMembership(async () => ...)`.  `id` is the creation
index, `trackId` the requested track.  Each task runs the underlying
`checkSongInUserPlaylists` lookup exactly once over its lifetime. -/
structure MTask where
  id : Nat
  trackId : String
deriving DecidableEq, Repr

/-- The resolver's module-level state.  `tasks` is a history log of every
computation ever created (used to count underlying lookups); `running`
and `queue` partition the live tasks into those admitted by the gate and
those still waiting in `membershipQueue`. -/
structure ResolverState where
  cache : List (String × SongInPlaylistsResult)
  inFlight : List (String × Nat)
  inFlightCount : Nat
  queue : List MTask
  running : List MTask
  tasks : List MTask
  nextId : Nat
deriving Repr

/-- The state at module load: empty maps, empty queue, zero counter. -/
def initResolver : ResolverState :=
  { cache := [], inFlight := [], inFlightCount := 0, queue := [],
    running := [], tasks := [], nextId := 0 }

/-- What a single `getMembership(trackId)` call returns: the cached
result, the already-pending promise of the in-flight computation with the
given creation index, or a freshly created computation. -/
inductive CallOutcome where
  | fromCache (r : SongInPlaylistsResult)
  | joined (taskId : Nat)
  | started (taskId : Nat)
deriving DecidableEq, Repr

/-- The synchronous prefix of `getMembership(trackId)`: probe the cache,
probe the in-flight map, otherwise create the computation, admit it
through the gate when `inFlightCount < MAX_CONCURRENT_MEMBERSHIP` (it
starts running) or push it onto `membershipQueue`, and record it in the
in-flight map. -/
def callStep (s : ResolverState) (trackId : String) :
    ResolverState × CallOutcome :=
  match mapGet s.cache trackId with
  | some r => (s, CallOutcome.fromCache r)
  | none =>
    match mapGet s.inFlight trackId with
    | some tid => (s, CallOutcome.joined tid)
    | none =>
      let t : MTask := { id := s.nextId, trackId := trackId }
      if s.inFlightCount < MAX_CONCURRENT_MEMBERSHIP then
        ({ s with
            inFlightCount := s.inFlightCount + 1,
            running := s.running ++ [t],
            tasks := s.tasks ++ [t],
            inFlight := mapSet s.inFlight trackId t.id,
            nextId := s.nextId + 1 },
          CallOutcome.started t.id)
      else
        ({ s with
            queue := s.queue ++ [t],
            tasks := s.tasks ++ [t],
            inFlight := mapSet s.inFlight trackId t.id,
            nextId := s.nextId + 1 },
          CallOutcome.started t.id)

/-- The microtask batch that runs when the running computation `tid`
settles.  `outcome = some r` is a successful lookup (the task body caches
`r` before resolving); `none` is a rejection.  In either case the
`finally` inside `enqueueMembership` decrements the gate counter and
admits the head of `membershipQueue`, and the outer `finally` of
`getMembership` removes the in-flight entry.  A `tid` that is not running
cannot settle, so the step is the identity there. -/
def settleStep (s : ResolverState) (tid : Nat)
    (outcome : Option SongInPlaylistsResult) : ResolverState :=
  match s.running.find? (fun u => u.id = tid) with
  | none => s
  | some t =>
    let cache1 := match outcome with
      | some r => mapSet s.cache t.trackId r
      | none => s.cache
    let running1 := s.running.eraseP (fun u => u.id = tid)
    let cnt1 := s.inFlightCount - 1
    match s.queue with
    | [] =>
      { s with cache := cache1, running := running1, inFlightCount := cnt1,
               queue := [], inFlight := mapDelete s.inFlight t.trackId }
    | q :: rest =>
      { s with cache := cache1, running := running1 ++ [q],
               inFlightCount := cnt1 + 1, queue := rest,
               inFlight := mapDelete s.inFlight t.trackId }

/-- `membershipResultCache.delete(trackId)` as performed by the
orchestrator after an add. -/
def invalidateStep (s : ResolverState) (trackId : String) : ResolverState :=
  { s with cache := mapDelete s.cache trackId }

/-- External events driving the resolver. -/
inductive REvent where
  | call (trackId : String)
  | settle (tid : Nat) (outcome : Option SongInPlaylistsResult)
  | invalidate (trackId : String)
deriving Repr

/-- Apply one event. -/
def stepEvent (s : ResolverState) : REvent → ResolverState
  | REvent.call trackId => (callStep s trackId).1
  | REvent.settle tid outcome => settleStep s tid outcome
  | REvent.invalidate trackId => invalidateStep s trackId

/-- Run a sequence of events from a state. -/
def runEvents (evs : List REvent) (s : ResolverState) : ResolverState :=
  evs.foldl stepEvent s

/-- `k` consecutive `getMembership(trackId)` calls with nothing in
between, collecting each call's outcome. -/
def callsN (s : ResolverState) (trackId : String) :
    Nat → ResolverState × List CallOutcome
  | 0 => (s, [])
  | Nat.succ k =>
    let p := callStep s trackId
    let q := callsN p.1 trackId k
    (q.1, p.2 :: q.2)

/-! ## The recently-added overlay (`recentlyAddedByTrack`)

`rememberRecentlyAdded(trackId, playlistId)` inserts the playlist id into
the per-track set and schedules a one-shot timer that, 120000 ms later,
deletes the id from the set and drops the (then empty) set.  Time is
explicit: the state carries the pending timers, and an event trace
interleaves further `add` calls with timer callbacks firing. -/

/-- The expiry window (`120_000` ms). -/
def OVERRIDE_EXPIRY_MS : Nat := 120000

/-- The overlay state: the `recentlyAddedByTrack` map (each value a
duplicate-free list standing for a JS `Set`) plus the pending one-shot
timers as `(fire time, trackId, playlistId)` triples. -/
structure OverrideState where
  recent : List (String × List String)
  timers : List (Nat × String × String)
deriving Repr

/-- The overlay membership used when rendering: the set for a track, or
empty when the key is absent. -/
def setOf (recent : List (String × List String)) (trackId : String) :
    List String :=
  (mapGet recent trackId).getD []

/-- `rememberRecentlyAdded(trackId, playlistId)` invoked at time `now`:
get-or-create the set, add the playlist id, and schedule the expiry
callback for `now + 120_000`. -/
def rememberRecentlyAdded (now : Nat) (st : OverrideState)
    (trackId playlistId : String) : OverrideState :=
  { recent := mapSet st.recent trackId (setAdd (setOf st.recent trackId) playlistId),
    timers := st.timers ++ [(now + OVERRIDE_EXPIRY_MS, trackId, playlistId)] }

/-- The body of the scheduled callback: look the set up (return if the
track key is gone), delete the playlist id, and remove the track key
entirely once the set is empty. -/
def fireTimer (st : OverrideState) (trackId playlistId : String) :
    OverrideState :=
  match mapGet st.recent trackId with
  | none => st
  | some s =>
    let s1 := s.erase playlistId
    if s1.isEmpty then
      { st with recent := mapDelete st.recent trackId }
    else
      { st with recent := mapSet st.recent trackId s1 }

/-- Events acting on the overlay. -/
inductive OvEvent where
  | add (now : Nat) (trackId playlistId : String)
  | fire (trackId playlistId : String)
deriving DecidableEq, Repr

/-- Apply one overlay event. -/
def ovStep (st : OverrideState) : OvEvent → OverrideState
  | OvEvent.add now trackId playlistId =>
    rememberRecentlyAdded now st trackId playlistId
  | OvEvent.fire trackId playlistId => fireTimer st trackId playlistId

/-- Run a sequence of overlay events. -/
def ovRun (evs : List OvEvent) (st : OverrideState) : OverrideState :=
  evs.foldl ovStep st

/-- The union performed by the modal render code before display:
`recent.forEach((pid) => inSet.add(pid))` on top of the resolver result. -/
def overlayUnion (recent : List (String × List String)) (trackId : String)
    (inSet : List String) : List String :=
  (setOf recent trackId).foldl setAdd inSet

/-! ## The row-annotation entry point (`processTrackRow`)

A DOM row is embedded as the queries `processTrackRow` and
`getTrackIdFromRow` perform on it: its attribute map, whether it matches
the title-cell selector, the attribute-bearing descendant lookups, and
the href of the first track link.  JS attribute truthiness makes the
empty string falsy. -/

/-- A candidate row element. `getAttr` is `getAttribute` (none for an
absent attribute); `childAttr a` is
`host.querySelector("[" ++ a ++ "]")?.getAttribute(a)`;
`matchesTitleCell` is the `host.matches` test for the title-cell
selector; `linkHref` is the href of the selected track anchor
(`querySelector of a[href containing /track/] ?? a[href containing track/]`,
then `link?.href ?? link?.getAttribute("href")`). -/
structure Row where
  getAttr : String → Option String
  childAttr : String → Option String
  matchesTitleCell : Bool
  linkHref : Option String

/-- `setAttribute` on a row. -/
def Row.setAttr (row : Row) (name v : String) : Row :=
  { row with getAttr := fun a => if a = name then some v else row.getAttr a }

/-- JS truthiness of an attribute value: present and non-empty. -/
def truthy : Option String → Option String
  | some v => if v = "" then none else some v
  | none => none

/-- The ordered attribute candidates of `getTrackIdFromRow`. -/
def attrCandidates : List String :=
  ["data-track-id", "data-id", "data-item-id", "data-media-item-id",
   "data-product-id", "data-media-id", "data-row-id"]

/-- The leading digit run of a character list. -/
def leadingDigits (cs : List Char) : List Char :=
  cs.takeWhile (fun c => c.isDigit)

/-- Match `pat` followed by one or more digits at the head of `cs`,
returning the captured digits. -/
def matchTrackAt (pat cs : List Char) : Option (List Char) :=
  if pat.isPrefixOf cs then
    let ds := leadingDigits (cs.drop pat.length)
    if ds.isEmpty then none else some ds
  else none

/-- Leftmost match of the regex `pat(\d+)` over `cs` (the `.match` calls
of the link fallback, with `pat` the literal prefix of the pattern). -/
def searchTrack (pat : List Char) : List Char → Option (List Char)
  | [] => none
  | c :: rest =>
    match matchTrackAt pat (c :: rest) with
    | some ds => some ds
    | none => searchTrack pat rest

/-- `getTrackIdFromRow`: the direct title-cell attributes, then the
attribute candidates on the row or a descendant, then the track-link href
parsed for a trailing numeric id. -/
def getTrackIdFromRow (host : Row) : Option String :=
  let direct :=
    if host.matchesTitleCell then
      truthy (host.getAttr "data-id") <|> truthy (host.getAttr "data-track-id")
    else none
  let viaAttrs := attrCandidates.findSome? (fun attr =>
    truthy (host.getAttr attr) <|> truthy (host.childAttr attr))
  let viaLink :=
    match truthy host.linkHref with
    | none => none
    | some href =>
      match searchTrack "/track/".data href.data with
      | some ds => some (String.mk ds)
      | none =>
        match searchTrack "track/".data href.data with
        | some ds => some (String.mk ds)
        | none => none
  direct <|> viaAttrs <|> viaLink

/-- The externally visible side effects of one `processTrackRow` call:
how many identifier extractions ran, which track ids were passed to
`MediaItem.fromId` as a warm-up, and which were passed to
`getMembership`. -/
structure RowEffects where
  extractions : Nat
  warmups : List String
  resolverCalls : List String
deriving DecidableEq, Repr

/-- `processTrackRow`: return immediately when the row carries the
processed mark; otherwise extract an id, mark the row (also when no id
was found), and for an extracted id issue the warm-up resolve and the
`getMembership` request. -/
def processTrackRow (row : Row) : Row × RowEffects :=
  if row.getAttr "data-ml-playlist-checked" = some "1" then
    (row, { extractions := 0, warmups := [], resolverCalls := [] })
  else
    match getTrackIdFromRow row with
    | none =>
      (row.setAttr "data-ml-playlist-checked" "1",
        { extractions := 1, warmups := [], resolverCalls := [] })
    | some trackId =>
      (row.setAttr "data-ml-playlist-checked" "1",
        { extractions := 1, warmups := [trackId], resolverCalls := [trackId] })

/-! ## The playlist-add orchestrator (`addToSelectedPlaylists`)

The selected playlist ids come from the modal's checked checkboxes.  A
zero selection is rejected with an error notification before anything
else.  Otherwise the song title is fetched (a rejection there lands in
the outer `catch`), each selected playlist gets one dispatch of
`content/ADD_MEDIA_ITEMS_TO_PLAYLIST` inside its own `try` (a success is
recorded in the overlay immediately), and after the loop the resolver
cache entry for the track is deleted. -/

/-- Host environment of the orchestrator: the per-playlist dispatch (its
throw is caught per iteration) and the `song.title()` fetch. -/
structure AddEnv where
  dispatchAdd : String → Except String Unit
  titleResult : Except String String

/-- A notification shown to the user: message and kind. -/
structure Notif where
  message : String
  kind : String
deriving DecidableEq, Repr

/-- The plugin state touched by the orchestrator: the resolver result
cache and the overlay. -/
structure PluginState where
  cache : List (String × SongInPlaylistsResult)
  overrides : OverrideState
deriving Repr

/-- Report of one orchestrator run. -/
structure AddReport where
  attempted : List String
  succeeded : List String
  errorCount : Nat
  notifications : List Notif
deriving DecidableEq, Repr

/-- The per-playlist loop: dispatch, record the success in the overlay,
count errors. -/
def addLoop (env : AddEnv) (now : Nat) (songId : String) :
    List String → OverrideState → OverrideState × List String × Nat
  | [], ov => (ov, [], 0)
  | pid :: rest, ov =>
    match env.dispatchAdd pid with
    | Except.ok _ =>
      let ov1 := rememberRecentlyAdded now ov songId pid
      let r := addLoop env now songId rest ov1
      (r.1, pid :: r.2.1, r.2.2)
    | Except.error _ =>
      let r := addLoop env now songId rest ov
      (r.1, r.2.1, r.2.2 + 1)

/-- `addToSelectedPlaylists`. -/
def addToSelectedPlaylists (env : AddEnv) (now : Nat) (st : PluginState)
    (songId : String) (selectedPlaylistIds : List String) :
    PluginState × AddReport :=
  if selectedPlaylistIds.isEmpty then
    (st, { attempted := [], succeeded := [], errorCount := 0,
           notifications := [{ message := "Please select at least one playlist",
                               kind := "error" }] })
  else
    match env.titleResult with
    | Except.error _ =>
      -- the outer catch: nothing was dispatched, nothing recorded,
      -- the cache entry survives
      (st, { attempted := [], succeeded := [], errorCount := 0,
             notifications := [{ message := "Error adding song to playlists",
                                 kind := "error" }] })
    | Except.ok _ =>
      let r := addLoop env now songId selectedPlaylistIds st.overrides
      let st1 : PluginState :=
        { cache := mapDelete st.cache songId, overrides := r.1 }
      let notifs :=
        if r.2.2 > 0 then
          [{ message := "add finished with failures", kind := "error" }]
        else []
      (st1, { attempted := selectedPlaylistIds, succeeded := r.2.1,
              errorCount := r.2.2, notifications := notifs })

/-! ## Auxiliary predicates and concrete states used by the theorems -/

/-- The gate invariant: the counter agrees with the number of running
tasks, and never exceeds the limit. -/
def GateInv (s : ResolverState) : Prop :=
  s.inFlightCount = s.running.length ∧
  s.running.length ≤ MAX_CONCURRENT_MEMBERSHIP

/-- All per-track override sets are duplicate-free (JS `Set` semantics). -/
def OvInv (st : OverrideState) : Prop :=
  ∀ t s1, mapGet st.recent t = some s1 → s1.Nodup

/-- An environment in which the redux state read itself throws (a host
API shape change). -/
def envHostBroken : Env :=
  { getState := Except.error "host state shape changed",
    getUserPlaylistsApi := none,
    getMyPlaylistsApi := none,
    playlistItems := fun _ => Except.ok [] }

/-- A sample membership result. -/
def sampleResult : SongInPlaylistsResult :=
  { existsInPlaylists := true, playlists := [{ uuid := "A", title := "Mix A" }] }

/-- A resolver state with a cached result for track `t1`. -/
def sCached : ResolverState :=
  { cache := [("t1", sampleResult)], inFlight := [], inFlightCount := 0,
    queue := [], running := [], tasks := [], nextId := 0 }

/-- A resolver state with one running computation for track `x`. -/
def sRunning : ResolverState :=
  { cache := [], inFlight := [("x", 0)], inFlightCount := 1, queue := [],
    running := [{ id := 0, trackId := "x" }],
    tasks := [{ id := 0, trackId := "x" }], nextId := 1 }

/-- A saturated resolver state: five running computations and one queued. -/
def sFull : ResolverState :=
  { cache := [],
    inFlight := [("a", 0), ("b", 1), ("c", 2), ("d", 3), ("e", 4), ("f", 5)],
    inFlightCount := 5,
    queue := [{ id := 5, trackId := "f" }],
    running := [{ id := 0, trackId := "a" }, { id := 1, trackId := "b" },
                { id := 2, trackId := "c" }, { id := 3, trackId := "d" },
                { id := 4, trackId := "e" }],
    tasks := [{ id := 0, trackId := "a" }, { id := 1, trackId := "b" },
              { id := 2, trackId := "c" }, { id := 3, trackId := "d" },
              { id := 4, trackId := "e" }, { id := 5, trackId := "f" }],
    nextId := 6 }

/-- An unmarked row carrying no identifying markup at all. -/
def bareRow : Row :=
  { getAttr := fun _ => none, childAttr := fun _ => none,
    matchesTitleCell := false, linkHref := none }

/-- An orchestrator environment whose `song.title()` fetch rejects. -/
def addEnvTitleThrows : AddEnv :=
  { dispatchAdd := fun _ => Except.ok (), titleResult := Except.error "net" }

/-- An orchestrator environment in which everything succeeds. -/
def addEnvOk : AddEnv :=
  { dispatchAdd := fun _ => Except.ok (), titleResult := Except.ok "Song" }

/-- A plugin state holding a pre-add cached membership result for
track 123. -/
def stWithCache : PluginState :=
  { cache := [("123", sampleResult)], overrides := { recent := [], timers := [] } }

/-- A redux state that knows the current user `u1` but has no playlists
populated yet. -/
def stC4 : ReduxState := { currentUserId := some "u1", playlists := [] }

/-- An environment where the redux playlist record is still empty, so the
lookup falls back to `Playlist.getUserPlaylists`, which returns a
playlist created by a different user (`u2`) that contains the song. -/
def envC4 : Env :=
  { getState := Except.ok stC4,
    getUserPlaylistsApi := some (Except.ok
      [{ uuid := "p9", title := some "Foreign", type := "USER",
         creatorId := some "u2" }]),
    getMyPlaylistsApi := none,
    playlistItems := fun _ => Except.ok
      [{ id := some "123", mediaItemId := none, trackId := none,
         itemId := none, productId := none, title := none,
         artistName := none }] }

/-- A redux state for user `u1` owning playlist `A` (which contains song
123) and also exposing a foreign playlist `F` of user `u2`. -/
def stOwned : ReduxState :=
  { currentUserId := some "u1",
    playlists :=
      [{ uuid := "A", title := some "Mine", type := "USER",
         creatorId := some "u1" },
       { uuid := "F", title := some "Theirs", type := "USER",
         creatorId := some "u2" }] }

/-- An environment around `stOwned` where every playlist contains
song 123. -/
def envOwned : Env :=
  { getState := Except.ok stOwned,
    getUserPlaylistsApi := none,
    getMyPlaylistsApi := none,
    playlistItems := fun _ => Except.ok
      [{ id := some "123", mediaItemId := none, trackId := none,
         itemId := none, productId := none, title := none,
         artistName := none }] }

/-- An environment whose redux snapshot carries no user identity. -/
def envNoUser : Env :=
  { getState := Except.ok { currentUserId := none, playlists := [] },
    getUserPlaylistsApi := none,
    getMyPlaylistsApi := none,
    playlistItems := fun _ => Except.ok [] }

/-- The overlay state at module load. -/
def emptyOverrides : OverrideState := { recent := [], timers := [] }

/-- An overlay state whose set for track `t` holds exactly `p`. -/
def ovSingle : OverrideState := { recent := [("t", ["p"])], timers := [] }

/-! ## Theorems -/

theorem mapGet_set_self {α : Type} (m : List (String × α)) (k : String) (v : α) :
    mapGet (mapSet m k v) k = some v := by
  induction m with
  | nil => simp [mapGet, mapSet]
  | cons p rest ih =>
    by_cases h : p.1 = k
    · simp [mapSet, mapGet, h]
    · simp [mapSet, mapGet, h, ih]

theorem mapGet_set_other {α : Type} (m : List (String × α)) (k k1 : String)
    (v : α) (h : k ≠ k1) : mapGet (mapSet m k v) k1 = mapGet m k1 := by
  induction m with
  | nil => simp [mapGet, mapSet, h]
  | cons p rest ih =>
    by_cases hp : p.1 = k
    · simp [mapSet, mapGet, hp, h]
    · simp only [mapSet, mapGet, if_neg hp]
      by_cases hk : p.1 = k1
      · simp [mapGet, hk]
      · simp [mapGet, hk, ih]

theorem mapGet_delete_self {α : Type} (m : List (String × α)) (k : String) :
    mapGet (mapDelete m k) k = none := by
  induction m with
  | nil => simp [mapGet, mapDelete]
  | cons p rest ih =>
    by_cases h : p.1 = k
    · simpa [mapDelete, h] using ih
    · simpa [mapDelete, mapGet, h] using ih

theorem mapGet_delete_other {α : Type} (m : List (String × α)) (k k1 : String)
    (h : k ≠ k1) : mapGet (mapDelete m k) k1 = mapGet m k1 := by
  induction m with
  | nil => simp [mapGet, mapDelete]
  | cons p rest ih =>
    by_cases hp : p.1 = k
    · have hp1 : ¬ p.1 = k1 := by rw [hp]; exact h
      have hl : mapDelete (p :: rest) k = mapDelete rest k := by
        simp [mapDelete, hp]
      rw [hl, ih]
      simp [mapGet, hp1]
    · have hl : mapDelete (p :: rest) k = p :: mapDelete rest k := by
        simp [mapDelete, hp]
      rw [hl]
      by_cases hk : p.1 = k1
      · simp [mapGet, hk]
      · simp [mapGet, hk, ih]

theorem checkSongBody_ok_inv (env : Env) (songId : String)
    (r : SongInPlaylistsResult) (h : checkSongBody env songId = Except.ok r) :
    r.existsInPlaylists = !r.playlists.isEmpty := by
  unfold checkSongBody at h
  cases hs : env.getState with
  | error e => rw [hs] at h; exact Except.noConfusion h
  | ok st =>
    rw [hs] at h
    dsimp only at h
    cases hu : st.currentUserId with
    | none =>
      rw [hu] at h
      injection h with h1
      rw [← h1]
      rfl
    | some uid =>
      rw [hu] at h
      dsimp only at h
      by_cases he : (acquireUserPlaylists env st uid).isEmpty
      · simp only [he, if_true] at h
        injection h with h1
        rw [← h1]
        rfl
      · simp only [he, if_false] at h
        injection h with h1
        rw [← h1]

theorem checkSong_inv (env : Env) (songId : String) :
    (checkSongInUserPlaylists env songId).existsInPlaylists
      = !(checkSongInUserPlaylists env songId).playlists.isEmpty := by
  unfold checkSongInUserPlaylists
  cases hb : checkSongBody env songId with
  | error e => rfl
  | ok r => exact checkSongBody_ok_inv env songId r hb

theorem checkSongByMetaBody_ok_inv (env : Env) (title : String)
    (artist : Option String) (r : SongInPlaylistsResult)
    (h : checkSongByMetaBody env title artist = Except.ok r) :
    r.existsInPlaylists = !r.playlists.isEmpty := by
  unfold checkSongByMetaBody at h
  cases hs : env.getState with
  | error e => rw [hs] at h; exact Except.noConfusion h
  | ok st =>
    rw [hs] at h
    dsimp only at h
    cases hu : st.currentUserId with
    | none =>
      rw [hu] at h
      injection h with h1
      rw [← h1]
      rfl
    | some uid =>
      rw [hu] at h
      dsimp only at h
      by_cases he : (acquireUserPlaylists env st uid).isEmpty
      · simp only [he, if_true] at h
        injection h with h1
        rw [← h1]
        rfl
      · simp only [he, if_false] at h
        injection h with h1
        rw [← h1]

theorem checkSongByMeta_inv (env : Env) (title : String)
    (artist : Option String) :
    (checkSongInUserPlaylistsByMeta env title artist).existsInPlaylists
      = !(checkSongInUserPlaylistsByMeta env title artist).playlists.isEmpty := by
  unfold checkSongInUserPlaylistsByMeta
  cases hb : checkSongByMetaBody env title artist with
  | error e => rfl
  | ok r => exact checkSongByMetaBody_ok_inv env title artist r hb

/-- Claim C9: every result of checkSongInUserPlaylists and of
checkSongInUserPlaylistsByMeta satisfies
`existsInPlaylists = (playlists is non-empty)`. -/
theorem result_exists_iff_nonempty (env : Env) (songId title : String)
    (artist : Option String) :
    (checkSongInUserPlaylists env songId).existsInPlaylists
      = !(checkSongInUserPlaylists env songId).playlists.isEmpty
    ∧ (checkSongInUserPlaylistsByMeta env title artist).existsInPlaylists
      = !(checkSongInUserPlaylistsByMeta env title artist).playlists.isEmpty :=
  ⟨checkSong_inv env songId, checkSongByMeta_inv env title artist⟩

/-- Claim C10: the promise of checkSongInUserPlaylists always fulfills
(the whole body is inside `try` and the `catch` returns the safe empty
result), so the getMembership task never rejects and the `.catch` branch
attached in processTrackRow is unreachable; whenever the body does raise,
the returned value is the empty result. -/
theorem membership_lookup_never_rejects (env : Env) (trackId : String) :
    checkSongInUserPlaylistsAsync env trackId
      = Except.ok (checkSongInUserPlaylists env trackId)
    ∧ (∀ e, checkSongBody env trackId = Except.error e →
        checkSongInUserPlaylists env trackId
          = { existsInPlaylists := false, playlists := [] }) := by
  constructor
  · unfold checkSongInUserPlaylistsAsync checkSongInUserPlaylists
    cases checkSongBody env trackId <;> rfl
  · intro e he
    unfold checkSongInUserPlaylists
    rw [he]

theorem membership_lookup_never_rejects_witness :
    checkSongInUserPlaylistsAsync envHostBroken "42"
      = Except.ok { existsInPlaylists := false, playlists := [] }
    ∧ checkSongInUserPlaylists envHostBroken "42"
      = { existsInPlaylists := false, playlists := [] } := by
  have h := membership_lookup_never_rejects envHostBroken "42"
  have h2 := h.2 "host state shape changed" rfl
  exact ⟨by rw [h.1, h2], h2⟩

/-- Claim C8: with an empty selection the orchestrator shows a
user-visible error and returns before any host call: nothing is
dispatched, nothing is recorded in the overlay, and the membership cache
is untouched. -/
theorem zero_selection_rejected (env : AddEnv) (now : Nat) (st : PluginState)
    (songId : String) :
    addToSelectedPlaylists env now st songId []
      = (st, { attempted := [], succeeded := [], errorCount := 0,
               notifications :=
                 [{ message := "Please select at least one playlist",
                    kind := "error" }] }) := rfl

theorem setAttr_getAttr_self (r : Row) (name v : String) :
    (r.setAttr name v).getAttr name = some v := by
  simp [Row.setAttr]

/-- Claim C6: a row is processed at most once.  An unmarked row gets
exactly one extraction and at most one resolver call (exactly one when an
id was found, none when extraction fails), it carries the processed mark
afterwards, and a second invocation on the processed row is a no-op with
no extraction and no resolver call. -/
theorem row_processed_once (row : Row)
    (h : ¬ row.getAttr "data-ml-playlist-checked" = some "1") :
    ((processTrackRow row).1).getAttr "data-ml-playlist-checked" = some "1"
    ∧ processTrackRow (processTrackRow row).1
        = ((processTrackRow row).1,
           { extractions := 0, warmups := [], resolverCalls := [] })
    ∧ (processTrackRow row).2.extractions = 1
    ∧ (getTrackIdFromRow row = none → (processTrackRow row).2.resolverCalls = [])
    ∧ (∀ tid, getTrackIdFromRow row = some tid →
        (processTrackRow row).2.resolverCalls = [tid]) := by
  have hsecond : ∀ r2 : Row, r2.getAttr "data-ml-playlist-checked" = some "1" →
      processTrackRow r2 = (r2, { extractions := 0, warmups := [],
                                  resolverCalls := [] }) := by
    intro r2 h2
    unfold processTrackRow
    rw [if_pos h2]
  cases hx : getTrackIdFromRow row with
  | none =>
    have h1 : processTrackRow row
        = (row.setAttr "data-ml-playlist-checked" "1",
           { extractions := 1, warmups := [], resolverCalls := [] }) := by
      unfold processTrackRow
      rw [if_neg h, hx]
    rw [h1]
    refine ⟨setAttr_getAttr_self row _ _, ?_, rfl, fun _ => rfl, ?_⟩
    · exact hsecond _ (setAttr_getAttr_self row _ _)
    · intro tid htid
      exact Option.noConfusion htid
  | some tid0 =>
    have h1 : processTrackRow row
        = (row.setAttr "data-ml-playlist-checked" "1",
           { extractions := 1, warmups := [tid0], resolverCalls := [tid0] }) := by
      unfold processTrackRow
      rw [if_neg h, hx]
    rw [h1]
    refine ⟨setAttr_getAttr_self row _ _, ?_, rfl, ?_, ?_⟩
    · exact hsecond _ (setAttr_getAttr_self row _ _)
    · intro habs
      exact Option.noConfusion habs
    · intro tid htid
      injection htid with h2
      rw [h2]

theorem row_processed_once_witness :
    ((processTrackRow bareRow).1).getAttr "data-ml-playlist-checked" = some "1"
    ∧ processTrackRow (processTrackRow bareRow).1
        = ((processTrackRow bareRow).1,
           { extractions := 0, warmups := [], resolverCalls := [] })
    ∧ (processTrackRow bareRow).2.extractions = 1
    ∧ (processTrackRow bareRow).2.resolverCalls = [] := by
  have h := row_processed_once bareRow (by simp [bareRow])
  exact ⟨h.1, h.2.1, h.2.2.1, h.2.2.2.1 rfl⟩

/-! Step lemmas for the resolver. -/

theorem callStep_cached (s : ResolverState) (T : String)
    (r : SongInPlaylistsResult) (h : mapGet s.cache T = some r) :
    callStep s T = (s, CallOutcome.fromCache r) := by
  unfold callStep
  rw [h]

theorem callStep_joined (s : ResolverState) (T : String) (tid : Nat)
    (hc : mapGet s.cache T = none) (hi : mapGet s.inFlight T = some tid) :
    callStep s T = (s, CallOutcome.joined tid) := by
  unfold callStep
  rw [hc, hi]

theorem callStep_new (s : ResolverState) (T : String)
    (hc : mapGet s.cache T = none) (hi : mapGet s.inFlight T = none) :
    (callStep s T).2 = CallOutcome.started s.nextId
    ∧ (callStep s T).1.tasks = s.tasks ++ [{ id := s.nextId, trackId := T }]
    ∧ (callStep s T).1.cache = s.cache
    ∧ mapGet (callStep s T).1.inFlight T = some s.nextId
    ∧ (callStep s T).1.nextId = s.nextId + 1 := by
  unfold callStep
  rw [hc, hi]
  dsimp only
  split <;> exact ⟨rfl, rfl, rfl, mapGet_set_self s.inFlight T s.nextId, rfl⟩

theorem settleStep_proj (s : ResolverState) (tid : Nat)
    (outcome : Option SongInPlaylistsResult) (t : MTask)
    (hrun : s.running.find? (fun u => u.id = tid) = some t) :
    (settleStep s tid outcome).cache
      = (match outcome with
         | some r => mapSet s.cache t.trackId r
         | none => s.cache)
    ∧ (settleStep s tid outcome).inFlight = mapDelete s.inFlight t.trackId
    ∧ (settleStep s tid outcome).tasks = s.tasks
    ∧ (settleStep s tid outcome).nextId = s.nextId
    ∧ (settleStep s tid outcome).queue = s.queue.tail := by
  unfold settleStep
  rw [hrun]
  cases hq : s.queue <;> cases outcome <;> exact ⟨rfl, rfl, rfl, rfl, rfl⟩

/-- Claim C5: when the underlying computation for a track fails, the
settle removes the in-flight entry, caches nothing, and a later
getMembership call creates a fresh computation (a retry of the underlying
lookup). -/
theorem failed_lookup_retried (s : ResolverState) (tid : Nat) (T : String)
    (hrun : s.running.find? (fun u => u.id = tid)
      = some { id := tid, trackId := T })
    (hc : mapGet s.cache T = none) :
    mapGet (settleStep s tid none).inFlight T = none
    ∧ mapGet (settleStep s tid none).cache T = none
    ∧ (callStep (settleStep s tid none) T).2
        = CallOutcome.started (settleStep s tid none).nextId
    ∧ (callStep (settleStep s tid none) T).1.tasks
        = (settleStep s tid none).tasks
          ++ [{ id := (settleStep s tid none).nextId, trackId := T }] := by
  obtain ⟨hca, hin, _, _, _⟩ := settleStep_proj s tid none _ hrun
  have hin2 : mapGet (settleStep s tid none).inFlight T = none := by
    rw [hin]
    exact mapGet_delete_self s.inFlight T
  have hc2 : mapGet (settleStep s tid none).cache T = none := by
    rw [hca]
    exact hc
  obtain ⟨h1, h2, _, _, _⟩ := callStep_new (settleStep s tid none) T hc2 hin2
  exact ⟨hin2, hc2, h1, h2⟩

theorem failed_lookup_retried_witness :
    mapGet (settleStep sRunning 0 none).inFlight "x" = none
    ∧ mapGet (settleStep sRunning 0 none).cache "x" = none
    ∧ (callStep (settleStep sRunning 0 none) "x").2
        = CallOutcome.started (settleStep sRunning 0 none).nextId
    ∧ (callStep (settleStep sRunning 0 none) "x").1.tasks
        = (settleStep sRunning 0 none).tasks
          ++ [{ id := (settleStep sRunning 0 none).nextId, trackId := "x" }] :=
  failed_lookup_retried sRunning 0 "x" (by decide) (by decide)

theorem callsN_cached (s : ResolverState) (T : String)
    (r : SongInPlaylistsResult) (k : Nat) (h : mapGet s.cache T = some r) :
    callsN s T k = (s, List.replicate k (CallOutcome.fromCache r)) := by
  induction k with
  | zero => rfl
  | succ k ih =>
    simp only [callsN, callStep_cached s T r h, ih, List.replicate_succ]

theorem callsN_joined (s : ResolverState) (T : String) (tid : Nat) (k : Nat)
    (hc : mapGet s.cache T = none) (hi : mapGet s.inFlight T = some tid) :
    callsN s T k = (s, List.replicate k (CallOutcome.joined tid)) := by
  induction k with
  | zero => rfl
  | succ k ih =>
    simp only [callsN, callStep_joined s T tid hc hi, ih, List.replicate_succ]

theorem callStep_run (s : ResolverState) (T : String)
    (hc : mapGet s.cache T = none) (hi : mapGet s.inFlight T = none)
    (hlt : s.inFlightCount < MAX_CONCURRENT_MEMBERSHIP) :
    (callStep s T).1
      = { s with inFlightCount := s.inFlightCount + 1,
                 running := s.running ++ [{ id := s.nextId, trackId := T }],
                 tasks := s.tasks ++ [{ id := s.nextId, trackId := T }],
                 inFlight := mapSet s.inFlight T s.nextId,
                 nextId := s.nextId + 1 }
    ∧ (callStep s T).2 = CallOutcome.started s.nextId := by
  unfold callStep
  rw [hc, hi]
  dsimp only
  rw [if_pos hlt]
  exact ⟨rfl, rfl⟩

theorem find?_append_right {α : Type} (p : α → Bool) (l1 l2 : List α)
    (h : ∀ x ∈ l1, ¬ p x) : (l1 ++ l2).find? p = l2.find? p := by
  induction l1 with
  | nil => rfl
  | cons a rest ih =>
    have ha : p a = false := by
      have := h a (List.mem_cons_self a rest)
      exact Bool.eq_false_iff.mpr this
    simp only [List.cons_append, List.find?_cons, ha]
    exact ih (fun x hx => h x (List.mem_cons_of_mem a hx))

/-- Claim C1: the underlying lookup runs at most once per track between
invalidations.  A cached track answers any number of further calls with
the identical result and no state change; while a computation is in
flight, every further call joins it; a burst of `k + 1` calls with no
cached result creates exactly one computation, the first call starting it
and the rest joining it; and after that computation settles successfully
the result is cached and a subsequent call returns it from the cache with
no new computation. -/
theorem one_lookup_per_track (s : ResolverState) (T : String) :
    (∀ r k, mapGet s.cache T = some r →
      callsN s T k = (s, List.replicate k (CallOutcome.fromCache r)))
    ∧ (∀ tid k, mapGet s.cache T = none → mapGet s.inFlight T = some tid →
      callsN s T k = (s, List.replicate k (CallOutcome.joined tid)))
    ∧ (∀ k, mapGet s.cache T = none → mapGet s.inFlight T = none →
      callsN s T (k + 1)
        = ((callStep s T).1,
           CallOutcome.started s.nextId
             :: List.replicate k (CallOutcome.joined s.nextId))
      ∧ (callStep s T).1.tasks = s.tasks ++ [{ id := s.nextId, trackId := T }])
    ∧ (∀ r, mapGet s.cache T = none → mapGet s.inFlight T = none →
      s.inFlightCount < MAX_CONCURRENT_MEMBERSHIP →
      (∀ u ∈ s.running, u.id ≠ s.nextId) →
      mapGet (settleStep (callStep s T).1 s.nextId (some r)).cache T = some r
      ∧ (settleStep (callStep s T).1 s.nextId (some r)).tasks
          = s.tasks ++ [{ id := s.nextId, trackId := T }]
      ∧ callStep (settleStep (callStep s T).1 s.nextId (some r)) T
          = (settleStep (callStep s T).1 s.nextId (some r),
             CallOutcome.fromCache r)) := by
  refine ⟨fun r k h => callsN_cached s T r k h,
          fun tid k hc hi => callsN_joined s T tid k hc hi, ?_, ?_⟩
  · intro k hc hi
    have hnew := callStep_new s T hc hi
    have hc1 : mapGet (callStep s T).1.cache T = none := by
      rw [hnew.2.2.1]; exact hc
    have hj := callsN_joined (callStep s T).1 T s.nextId k hc1 hnew.2.2.2.1
    constructor
    · simp only [callsN, hj, hnew.1]
    · exact hnew.2.1
  · intro r hc hi hlt hfresh
    obtain ⟨hs1, _⟩ := callStep_run s T hc hi hlt
    set t : MTask := { id := s.nextId, trackId := T } with ht
    have hfind : (callStep s T).1.running.find? (fun u => u.id = s.nextId)
        = some t := by
      rw [hs1]
      dsimp only
      rw [find?_append_right _ s.running [t]
        (by intro x hx; simpa using hfresh x hx)]
      simp [ht]
    obtain ⟨hca, hin, htask, hnext, hqueue⟩ :=
      settleStep_proj (callStep s T).1 s.nextId (some r) t hfind
    have hcache : mapGet (settleStep (callStep s T).1 s.nextId (some r)).cache T
        = some r := by
      rw [hca]
      have : (callStep s T).1.cache = s.cache := by rw [hs1]
      rw [this]
      exact mapGet_set_self s.cache T r
    refine ⟨hcache, ?_, callStep_cached _ T r hcache⟩
    rw [htask, hs1]

theorem one_lookup_per_track_witness :
    callsN sCached "t1" 2
      = (sCached, [CallOutcome.fromCache sampleResult,
                   CallOutcome.fromCache sampleResult])
    ∧ callsN initResolver "t2" 3
      = ((callStep initResolver "t2").1,
         [CallOutcome.started 0, CallOutcome.joined 0, CallOutcome.joined 0])
    ∧ mapGet (settleStep (callStep initResolver "t2").1 0
        (some sampleResult)).cache "t2" = some sampleResult := by
  have h1 := (one_lookup_per_track sCached "t1").1 sampleResult 2 (by decide)
  have h3 := ((one_lookup_per_track initResolver "t2").2.2.1 2 rfl rfl).1
  have h4 := ((one_lookup_per_track initResolver "t2").2.2.2 sampleResult
    rfl rfl (by decide) (by simp [initResolver])).1
  exact ⟨h1, by simpa [initResolver] using h3, h4⟩

theorem gateInv_call (s : ResolverState) (T : String) (h : GateInv s) :
    GateInv (callStep s T).1 := by
  unfold callStep
  cases mapGet s.cache T with
  | some r => exact h
  | none =>
    cases mapGet s.inFlight T with
    | some tid => exact h
    | none =>
      dsimp only
      by_cases hlt : s.inFlightCount < MAX_CONCURRENT_MEMBERSHIP
      · rw [if_pos hlt]
        refine ⟨?_, ?_⟩
        · simp [h.1]
        · simp only [List.length_append, List.length_cons, List.length_nil]
          have : s.running.length < MAX_CONCURRENT_MEMBERSHIP := h.1 ▸ hlt
          omega
      · rw [if_neg hlt]
        exact h

theorem gateInv_settle (s : ResolverState) (tid : Nat)
    (o : Option SongInPlaylistsResult) (h : GateInv s) :
    GateInv (settleStep s tid o) := by
  obtain ⟨h1, h2⟩ := h
  have hmax : MAX_CONCURRENT_MEMBERSHIP = 5 := rfl
  rw [hmax] at h2
  unfold settleStep
  cases hf : s.running.find? (fun u => u.id = tid) with
  | none => exact ⟨h1, by rw [hmax]; exact h2⟩
  | some t =>
    have hm := List.mem_of_find?_eq_some hf
    have hp := List.find?_some hf
    have hlen : (s.running.eraseP (fun u => u.id = tid)).length + 1
        = s.running.length := List.length_eraseP_add_one hm hp
    cases hq : s.queue with
    | nil =>
      refine ⟨?_, ?_⟩
      · show s.inFlightCount - 1
          = (s.running.eraseP (fun u => u.id = tid)).length
        omega
      · show (s.running.eraseP (fun u => u.id = tid)).length
          ≤ MAX_CONCURRENT_MEMBERSHIP
        rw [hmax]
        omega
    | cons q rest =>
      have hlen2 : ((s.running.eraseP (fun u => u.id = tid)) ++ [q]).length
          = (s.running.eraseP (fun u => u.id = tid)).length + 1 := by
        simp
      refine ⟨?_, ?_⟩
      · show s.inFlightCount - 1 + 1
          = ((s.running.eraseP (fun u => u.id = tid)) ++ [q]).length
        omega
      · show ((s.running.eraseP (fun u => u.id = tid)) ++ [q]).length
          ≤ MAX_CONCURRENT_MEMBERSHIP
        rw [hmax]
        omega

theorem gateInv_step (s : ResolverState) (ev : REvent) (h : GateInv s) :
    GateInv (stepEvent s ev) := by
  cases ev with
  | call T => exact gateInv_call s T h
  | settle tid o => exact gateInv_settle s tid o h
  | invalidate T => exact h

theorem gateInv_runEvents (evs : List REvent) (s : ResolverState)
    (h : GateInv s) : GateInv (runEvents evs s) := by
  induction evs generalizing s with
  | nil => exact h
  | cons ev rest ih => exact ih (stepEvent s ev) (gateInv_step s ev h)

/-- Claim C2: the gate never lets more than 5 computations run at once;
a call that misses cache and in-flight map while the gate is saturated
appends the new computation at the tail of the queue (arrival order) and
starts nothing; and a settle (success or failure) admits exactly the
queue head, and nothing when the queue is empty. -/
theorem concurrency_gate_bound :
    (∀ evs, (runEvents evs initResolver).inFlightCount
        ≤ MAX_CONCURRENT_MEMBERSHIP)
    ∧ (∀ s T, mapGet s.cache T = none → mapGet s.inFlight T = none →
        ¬ s.inFlightCount < MAX_CONCURRENT_MEMBERSHIP →
        (callStep s T).1.queue = s.queue ++ [{ id := s.nextId, trackId := T }]
        ∧ (callStep s T).1.running = s.running)
    ∧ (∀ s tid o t q rest,
        s.running.find? (fun u => u.id = tid) = some t →
        s.queue = q :: rest →
        (settleStep s tid o).queue = rest
        ∧ (settleStep s tid o).running
            = s.running.eraseP (fun u => u.id = tid) ++ [q])
    ∧ (∀ s tid o t,
        s.running.find? (fun u => u.id = tid) = some t →
        s.queue = [] →
        (settleStep s tid o).queue = []
        ∧ (settleStep s tid o).running
            = s.running.eraseP (fun u => u.id = tid)) := by
  refine ⟨?_, ?_, ?_, ?_⟩
  · intro evs
    have h := gateInv_runEvents evs initResolver ⟨rfl, by decide⟩
    rw [h.1]
    exact h.2
  · intro s T hc hi hge
    unfold callStep
    rw [hc, hi]
    dsimp only
    rw [if_neg hge]
    exact ⟨rfl, rfl⟩
  · intro s tid o t q rest hf hq
    unfold settleStep
    rw [hf, hq]
    exact ⟨rfl, rfl⟩
  · intro s tid o t hf hq
    unfold settleStep
    rw [hf, hq]
    exact ⟨rfl, rfl⟩

theorem concurrency_gate_bound_witness :
    (runEvents [REvent.call "a", REvent.call "b", REvent.call "c",
      REvent.call "d", REvent.call "e", REvent.call "f", REvent.call "g"]
      initResolver).inFlightCount ≤ MAX_CONCURRENT_MEMBERSHIP
    ∧ ((callStep sFull "g").1.queue
        = sFull.queue ++ [{ id := 6, trackId := "g" }]
       ∧ (callStep sFull "g").1.running = sFull.running)
    ∧ ((settleStep sFull 2 none).queue = []
       ∧ (settleStep sFull 2 none).running
          = sFull.running.eraseP (fun u => u.id = 2)
            ++ [{ id := 5, trackId := "f" }]) := by
  have hw := concurrency_gate_bound
  refine ⟨hw.1 _, ?_, ?_⟩
  · have h2 := hw.2.1 sFull "g" (by decide) (by decide) (by decide)
    exact h2
  · exact hw.2.2.1 sFull 2 none { id := 2, trackId := "c" }
      { id := 5, trackId := "f" } [] (by decide) rfl

/-! Overlay membership lemmas. -/

theorem mem_setAdd_self (s : List String) (x : String) : x ∈ setAdd s x := by
  unfold setAdd
  split
  · assumption
  · exact List.mem_append_right s (List.mem_singleton.mpr rfl)

theorem mem_setAdd_of_mem (s : List String) (x y : String) (h : y ∈ s) :
    y ∈ setAdd s x := by
  unfold setAdd
  split
  · exact h
  · exact List.mem_append_left [x] h

theorem setOf_remember_self (now : Nat) (ov : OverrideState) (T P : String) :
    setOf (rememberRecentlyAdded now ov T P).recent T
      = setAdd (setOf ov.recent T) P := by
  unfold rememberRecentlyAdded setOf
  rw [mapGet_set_self]
  rfl

theorem setOf_remember_other (now : Nat) (ov : OverrideState) (T P T1 : String)
    (h : T ≠ T1) :
    setOf (rememberRecentlyAdded now ov T P).recent T1 = setOf ov.recent T1 := by
  unfold rememberRecentlyAdded setOf
  rw [mapGet_set_other _ _ _ _ h]

theorem mem_setOf_remember (now : Nat) (ov : OverrideState) (T P T1 P1 : String)
    (h : P1 ∈ setOf ov.recent T1) :
    P1 ∈ setOf (rememberRecentlyAdded now ov T P).recent T1 := by
  by_cases hT : T = T1
  · subst hT
    rw [setOf_remember_self]
    exact mem_setAdd_of_mem _ _ _ h
  · rw [setOf_remember_other now ov T P T1 hT]
    exact h

theorem addLoop_recent_mono (env : AddEnv) (now : Nat) (songId : String)
    (sel : List String) :
    ∀ ov P1, P1 ∈ setOf ov.recent songId →
      P1 ∈ setOf (addLoop env now songId sel ov).1.recent songId := by
  induction sel with
  | nil => intro ov P1 h; exact h
  | cons pid rest ih =>
    intro ov P1 h
    unfold addLoop
    cases env.dispatchAdd pid with
    | ok u =>
      dsimp only
      exact ih _ _ (mem_setOf_remember now ov songId pid songId P1 h)
    | error e =>
      dsimp only
      exact ih _ _ h

theorem addLoop_succeeded_recorded (env : AddEnv) (now : Nat) (songId : String)
    (sel : List String) :
    ∀ ov, ∀ pid ∈ (addLoop env now songId sel ov).2.1,
      pid ∈ setOf (addLoop env now songId sel ov).1.recent songId := by
  induction sel with
  | nil => intro ov pid h; exact absurd h (List.not_mem_nil pid)
  | cons pid0 rest ih =>
    intro ov pid h
    unfold addLoop at h ⊢
    cases hd : env.dispatchAdd pid0 with
    | ok u =>
      rw [hd] at h
      dsimp only at h ⊢
      rcases List.mem_cons.mp h with h1 | h1
      · subst h1
        exact addLoop_recent_mono env now songId rest _ pid
          (by rw [setOf_remember_self]; exact mem_setAdd_self _ pid)
      · exact ih _ pid h1
    | error e =>
      rw [hd] at h
      dsimp only at h ⊢
      exact ih _ pid h

/-- Claim C3 (amended): when the song-title fetch succeeds, a completed
add with a non-empty selection leaves no cached membership entry for the
track, and every individually successful playlist add is recorded in the
recently-added override set for the track.  (When the title fetch throws,
the outer catch aborts the operation before any add; see the
counterexample.) -/
theorem add_invalidates_and_records (env : AddEnv) (now : Nat)
    (st : PluginState) (songId : String) (sel : List String) (ttl : String)
    (hne : sel ≠ []) (hok : env.titleResult = Except.ok ttl) :
    mapGet (addToSelectedPlaylists env now st songId sel).1.cache songId = none
    ∧ (∀ pid ∈ (addToSelectedPlaylists env now st songId sel).2.succeeded,
        pid ∈ setOf
          (addToSelectedPlaylists env now st songId sel).1.overrides.recent
          songId)
    ∧ (∀ s : ResolverState,
        s.cache = (addToSelectedPlaylists env now st songId sel).1.cache →
        mapGet s.inFlight songId = none →
        (callStep s songId).2 = CallOutcome.started s.nextId) := by
  have hie : sel.isEmpty = false := by
    cases sel with
    | nil => exact absurd rfl hne
    | cons a l => rfl
  unfold addToSelectedPlaylists
  rw [hie, hok]
  dsimp only [Bool.false_eq_true, if_false]
  refine ⟨mapGet_delete_self st.cache songId,
          addLoop_succeeded_recorded env now songId sel st.overrides, ?_⟩
  intro s hs hi
  have hc : mapGet s.cache songId = none := by
    rw [hs]
    exact mapGet_delete_self st.cache songId
  exact (callStep_new s songId hc hi).1

theorem add_invalidates_and_records_witness :
    mapGet (addToSelectedPlaylists addEnvOk 0 stWithCache "123" ["B"]).1.cache
      "123" = none
    ∧ "B" ∈ setOf
        (addToSelectedPlaylists addEnvOk 0 stWithCache "123"
          ["B"]).1.overrides.recent "123" := by
  have h := add_invalidates_and_records addEnvOk 0 stWithCache "123" ["B"]
    "Song" (by decide) rfl
  exact ⟨h.1, h.2.1 "B" (by decide)⟩

/-- Claim C3 counterexample: with a non-empty selection but a rejecting
`song.title()` fetch, `addToSelectedPlaylists` completes (the outer catch
swallows the rejection) yet the pre-add cached membership entry for the
track is still present, contradicting the claim that after completion the
cache contains no entry for the track. -/
theorem add_title_throw_keeps_cache :
    mapGet (addToSelectedPlaylists addEnvTitleThrows 0 stWithCache "123"
      ["B"]).1.cache "123" = some sampleResult
    ∧ sampleResult ≠ { existsInPlaylists := false, playlists := [] } := by
  exact ⟨rfl, by decide⟩

/-- Claim C4 (amended): when the current user is undetermined the lookup
returns the empty result without raising; and whenever the redux store
yields at least one playlist owned by the current user, every playlist in
the result originates from a redux playlist of type USER whose creator is
the current user.  (Playlists obtained through the Playlist API fallback
are not re-filtered by creator; see the counterexample.) -/
theorem ownership_filter (env : Env) (songId : String) (st : ReduxState)
    (uid : String) :
    (env.getState = Except.ok st → st.currentUserId = none →
      checkSongInUserPlaylists env songId
        = { existsInPlaylists := false, playlists := [] })
    ∧ (env.getState = Except.ok st → st.currentUserId = some uid →
      (st.playlists.filter
        (fun pl => pl.type = "USER" && pl.creatorId = some uid)).isEmpty
            = false →
      ∀ p ∈ (checkSongInUserPlaylists env songId).playlists,
        ∃ pl, pl ∈ st.playlists ∧ pl.type = "USER"
          ∧ pl.creatorId = some uid ∧ p.uuid = pl.uuid) := by
  constructor
  · intro hs hu
    unfold checkSongInUserPlaylists checkSongBody
    rw [hs]
    dsimp only
    rw [hu]
  · intro hs hu hne p hp
    have hacq : acquireUserPlaylists env st uid
        = st.playlists.filter
            (fun pl => pl.type = "USER" && pl.creatorId = some uid) := by
      unfold acquireUserPlaylists
      simp only [hne, Bool.false_eq_true, if_false]
    have hbody : checkSongBody env songId
        = Except.ok
            { existsInPlaylists :=
                !(collectContaining env (fun it => entryMatchesId it songId)
                  (st.playlists.filter
                    (fun pl => pl.type = "USER"
                      && pl.creatorId = some uid))).isEmpty,
              playlists :=
                collectContaining env (fun it => entryMatchesId it songId)
                  (st.playlists.filter
                    (fun pl => pl.type = "USER"
                      && pl.creatorId = some uid)) } := by
      unfold checkSongBody
      rw [hs]
      dsimp only
      rw [hu]
      dsimp only
      rw [hacq]
      rw [if_neg (by rw [hne]; exact Bool.false_ne_true)]
    unfold checkSongInUserPlaylists at hp
    rw [hbody] at hp
    dsimp only at hp
    obtain ⟨pl, hpl, hf⟩ := List.mem_filterMap.mp hp
    obtain ⟨hmem, hpred⟩ := List.mem_filter.mp hpl
    have hpred2 : pl.type = "USER" ∧ pl.creatorId = some uid := by
      simpa using hpred
    refine ⟨pl, hmem, hpred2.1, hpred2.2, ?_⟩
    revert hf
    cases env.playlistItems pl.uuid with
    | error e => intro hf; exact Option.noConfusion hf
    | ok items =>
      dsimp only
      split
      · intro hf
        injection hf with hf1
        rw [← hf1]
      · intro hf
        exact Option.noConfusion hf

theorem ownership_filter_witness :
    checkSongInUserPlaylists envNoUser "9"
      = { existsInPlaylists := false, playlists := [] }
    ∧ ∃ pl, pl ∈ stOwned.playlists ∧ pl.type = "USER"
        ∧ pl.creatorId = some "u1"
        ∧ ({ uuid := "A", title := "Mine" } : PlaylistRef).uuid = pl.uuid := by
  constructor
  · exact (ownership_filter envNoUser "9"
      { currentUserId := none, playlists := [] } "u").1 rfl rfl
  · have hres : (checkSongInUserPlaylists envOwned "123").playlists
        = [{ uuid := "A", title := "Mine" }] := by decide
    exact (ownership_filter envOwned "123" stOwned "u1").2 rfl rfl (by decide)
      { uuid := "A", title := "Mine" }
      (by rw [hres]; exact List.mem_singleton.mpr rfl)

/-- Claim C4 counterexample: with the redux playlist record still empty,
the lookup falls back to `Playlist.getUserPlaylists` and uses the
returned playlists without re-checking type or creator, so a playlist
created by user u2 is included in the result computed for current user
u1. -/
theorem ownership_filter_counterexample :
    envC4.getState = Except.ok stC4
    ∧ stC4.currentUserId = some "u1"
    ∧ envC4.getUserPlaylistsApi
        = some (Except.ok ([{ uuid := "p9", title := some "Foreign",
                              type := "USER", creatorId := some "u2" }]
            : List PlaylistObj))
    ∧ checkSongInUserPlaylists envC4 "123"
        = { existsInPlaylists := true,
            playlists := [{ uuid := "p9", title := "Foreign" }] }
    ∧ (some "u2" : Option String) ≠ some "u1" := by
  refine ⟨rfl, rfl, rfl, by decide, by decide⟩

/-! Overlay expiry lemmas. -/

theorem mem_setAdd_cases (s : List String) (x y : String)
    (h : y ∈ setAdd s x) : y ∈ s ∨ y = x := by
  unfold setAdd at h
  by_cases hx : x ∈ s
  · rw [if_pos hx] at h
    exact Or.inl h
  · rw [if_neg hx] at h
    rcases List.mem_append.mp h with h1 | h1
    · exact Or.inl h1
    · exact Or.inr (List.mem_singleton.mp h1)

theorem not_mem_setAdd (s : List String) (x y : String) (h1 : y ∉ s)
    (h2 : y ≠ x) : y ∉ setAdd s x := by
  intro h
  rcases mem_setAdd_cases s x y h with h3 | h3
  · exact h1 h3
  · exact h2 h3

theorem setAdd_nodup (s : List String) (x : String) (h : s.Nodup) :
    (setAdd s x).Nodup := by
  unfold setAdd
  by_cases hx : x ∈ s
  · rw [if_pos hx]
    exact h
  · rw [if_neg hx]
    refine List.nodup_append.mpr ⟨h, List.nodup_singleton x, ?_⟩
    intro y hy hz
    rw [List.mem_singleton] at hz
    subst hz
    exact hx hy

theorem mapGet_set_cases {α : Type} (m : List (String × α)) (k k1 : String)
    (v s1 : α) (h : mapGet (mapSet m k v) k1 = some s1) :
    s1 = v ∨ mapGet m k1 = some s1 := by
  by_cases hk : k = k1
  · subst hk
    rw [mapGet_set_self] at h
    injection h with h1
    exact Or.inl h1.symm
  · rw [mapGet_set_other _ _ _ _ hk] at h
    exact Or.inr h

theorem mapGet_delete_cases {α : Type} (m : List (String × α)) (k k1 : String)
    (s1 : α) (h : mapGet (mapDelete m k) k1 = some s1) :
    mapGet m k1 = some s1 := by
  by_cases hk : k = k1
  · subst hk
    rw [mapGet_delete_self] at h
    exact Option.noConfusion h
  · rw [mapGet_delete_other _ _ _ hk] at h
    exact h

theorem setOf_nodup (st : OverrideState) (hinv : OvInv st) (T : String) :
    (setOf st.recent T).Nodup := by
  unfold setOf
  cases hm : mapGet st.recent T with
  | none => exact List.nodup_nil
  | some s => exact hinv T s hm

theorem ovInv_remember (now : Nat) (st : OverrideState) (T P : String)
    (hinv : OvInv st) : OvInv (rememberRecentlyAdded now st T P) := by
  intro t s1 h
  unfold rememberRecentlyAdded at h
  dsimp only at h
  rcases mapGet_set_cases st.recent T t _ s1 h with h1 | h1
  · rw [h1]
    exact setAdd_nodup _ P (setOf_nodup st hinv T)
  · exact hinv t s1 h1

theorem ovInv_fire (st : OverrideState) (T P : String) (hinv : OvInv st) :
    OvInv (fireTimer st T P) := by
  intro t s1 h
  unfold fireTimer at h
  cases hm : mapGet st.recent T with
  | none =>
    rw [hm] at h
    exact hinv t s1 h
  | some s =>
    rw [hm] at h
    dsimp only at h
    by_cases he : (s.erase P).isEmpty
    · rw [if_pos he] at h
      exact hinv t s1 (mapGet_delete_cases st.recent T t s1 h)
    · rw [if_neg he] at h
      rcases mapGet_set_cases st.recent T t _ s1 h with h1 | h1
      · rw [h1]
        exact (hinv T s hm).erase P
      · exact hinv t s1 h1

theorem ovInv_run (evs : List OvEvent) (st : OverrideState) (hinv : OvInv st) :
    OvInv (ovRun evs st) := by
  induction evs generalizing st with
  | nil => exact hinv
  | cons ev rest ih =>
    refine ih (ovStep st ev) ?_
    cases ev with
    | add now T P => exact ovInv_remember now st T P hinv
    | fire T P => exact ovInv_fire st T P hinv

theorem setOf_fire_subset (st : OverrideState) (T1 P1 T Q : String)
    (h : Q ∈ setOf (fireTimer st T1 P1).recent T) : Q ∈ setOf st.recent T := by
  unfold fireTimer at h
  cases hm : mapGet st.recent T1 with
  | none =>
    rw [hm] at h
    exact h
  | some s =>
    rw [hm] at h
    dsimp only at h
    by_cases he : (s.erase P1).isEmpty
    · rw [if_pos he] at h
      by_cases hT : T1 = T
      · subst hT
        unfold setOf at h
        rw [mapGet_delete_self] at h
        exact absurd h (List.not_mem_nil Q)
      · unfold setOf at h ⊢
        rw [mapGet_delete_other _ _ _ hT] at h
        exact h
    · rw [if_neg he] at h
      by_cases hT : T1 = T
      · subst hT
        unfold setOf at h ⊢
        rw [mapGet_set_self] at h
        rw [hm]
        exact List.mem_of_mem_erase h
      · unfold setOf at h ⊢
        rw [mapGet_set_other _ _ _ _ hT] at h
        exact h

theorem notMem_ovStep (st : OverrideState) (ev : OvEvent) (T P : String)
    (hev : ∀ t, ev ≠ OvEvent.add t T P) (h : P ∉ setOf st.recent T) :
    P ∉ setOf (ovStep st ev).recent T := by
  cases ev with
  | add now T1 P1 =>
    by_cases hT : T1 = T
    · subst hT
      have hP : P1 ≠ P := by
        intro hp
        subst hp
        exact hev now rfl
      show P ∉ setOf (rememberRecentlyAdded now st T1 P1).recent T1
      rw [setOf_remember_self]
      exact not_mem_setAdd _ _ _ h (fun hp => hP hp.symm)
    · rw [show ovStep st (OvEvent.add now T1 P1)
          = rememberRecentlyAdded now st T1 P1 from rfl]
      rw [setOf_remember_other now st T1 P1 T hT]
      exact h
  | fire T1 P1 =>
    intro hmem
    exact h (setOf_fire_subset st T1 P1 T P hmem)

theorem notMem_ovRun (evs : List OvEvent) (st : OverrideState) (T P : String)
    (hev : ∀ t, OvEvent.add t T P ∉ evs) (h : P ∉ setOf st.recent T) :
    P ∉ setOf (ovRun evs st).recent T := by
  induction evs generalizing st with
  | nil => exact h
  | cons ev rest ih =>
    refine ih (ovStep st ev)
      (fun t ht => hev t (List.mem_cons_of_mem ev ht)) ?_
    refine notMem_ovStep st ev T P ?_ h
    intro t ht
    subst ht
    exact hev t (List.mem_cons_self _ rest)

theorem mem_ovStep (st : OverrideState) (ev : OvEvent) (T P : String)
    (hev : ev ≠ OvEvent.fire T P) (h : P ∈ setOf st.recent T) :
    P ∈ setOf (ovStep st ev).recent T := by
  cases ev with
  | add now T1 P1 => exact mem_setOf_remember now st T1 P1 T P h
  | fire T1 P1 =>
    show P ∈ setOf (fireTimer st T1 P1).recent T
    by_cases hT : T1 = T
    · subst hT
      have hP : P1 ≠ P := by
        intro hp
        subst hp
        exact hev rfl
      unfold fireTimer
      cases hm : mapGet st.recent T1 with
      | none =>
        unfold setOf at h
        rw [hm] at h
        exact absurd h (List.not_mem_nil P)
      | some s =>
        unfold setOf at h
        rw [hm] at h
        have hPe : P ∈ s.erase P1 :=
          (List.mem_erase_of_ne (fun hp => hP hp.symm)).mpr h
        have hne : (s.erase P1).isEmpty = false := by
          cases hs : s.erase P1 with
          | nil => rw [hs] at hPe; exact absurd hPe (List.not_mem_nil P)
          | cons a l => rfl
        simp only [hne, Bool.false_eq_true, if_false]
        unfold setOf
        rw [mapGet_set_self]
        exact hPe
    · unfold fireTimer
      cases hm : mapGet st.recent T1 with
      | none => exact h
      | some s =>
        dsimp only
        by_cases he : (s.erase P1).isEmpty
        · rw [if_pos he]
          unfold setOf at h ⊢
          rw [mapGet_delete_other _ _ _ hT]
          exact h
        · rw [if_neg he]
          unfold setOf at h ⊢
          rw [mapGet_set_other _ _ _ _ hT]
          exact h

theorem mem_ovRun (evs : List OvEvent) (st : OverrideState) (T P : String)
    (hev : OvEvent.fire T P ∉ evs) (h : P ∈ setOf st.recent T) :
    P ∈ setOf (ovRun evs st).recent T := by
  induction evs generalizing st with
  | nil => exact h
  | cons ev rest ih =>
    refine ih (ovStep st ev) (fun ht => hev (List.mem_cons_of_mem ev ht)) ?_
    refine mem_ovStep st ev T P ?_ h
    intro he
    subst he
    exact hev (List.mem_cons_self _ rest)

theorem fire_removes (st : OverrideState) (T P : String) (hinv : OvInv st) :
    P ∉ setOf (fireTimer st T P).recent T := by
  unfold fireTimer
  cases hm : mapGet st.recent T with
  | none =>
    unfold setOf
    rw [hm]
    exact List.not_mem_nil P
  | some s =>
    dsimp only
    by_cases he : (s.erase P).isEmpty
    · rw [if_pos he]
      unfold setOf
      rw [mapGet_delete_self]
      exact List.not_mem_nil P
    · rw [if_neg he]
      unfold setOf
      rw [mapGet_set_self]
      exact (hinv T s hm).not_mem_erase

theorem foldl_setAdd_not_mem (l : List String) (P : String) :
    ∀ base, P ∉ base → P ∉ l → P ∉ l.foldl setAdd base := by
  induction l with
  | nil => intro base h1 _ ; exact h1
  | cons x rest ih =>
    intro base h1 h2
    have hx : P ≠ x := fun hp => h2 (hp ▸ List.mem_cons_self x rest)
    exact ih (setAdd base x) (not_mem_setAdd base x P h1 hx)
      (fun hp => h2 (List.mem_cons_of_mem x hp))

/-- Claim C7: a freshly recorded override entry for `(T, P)` is visible
at once, its expiry callback is scheduled at exactly `t0 + 120000`, the
entry stays present through arbitrary other overlay activity until that
callback fires (independence from other pairs), and once the callback has
fired — with no new add for the pair — `P` is gone from the set for `T`,
is never unioned into membership views, and when `P` was the last element
the whole set for `T` is removed. -/
theorem overlay_entry_expires (st : OverrideState) (t0 : Nat) (T P : String)
    (evs1 evs2 : List OvEvent) (hinv : OvInv st)
    (h1fire : OvEvent.fire T P ∉ evs1)
    (h2add : ∀ t, OvEvent.add t T P ∉ evs2) :
    P ∈ setOf (rememberRecentlyAdded t0 st T P).recent T
    ∧ (t0 + OVERRIDE_EXPIRY_MS, T, P) ∈ (rememberRecentlyAdded t0 st T P).timers
    ∧ P ∈ setOf (ovRun evs1 (rememberRecentlyAdded t0 st T P)).recent T
    ∧ P ∉ setOf (ovRun evs2 (fireTimer
        (ovRun evs1 (rememberRecentlyAdded t0 st T P)) T P)).recent T
    ∧ (∀ base, P ∉ base → P ∉ overlayUnion (ovRun evs2 (fireTimer
        (ovRun evs1 (rememberRecentlyAdded t0 st T P)) T P)).recent T base)
    ∧ (∀ st1 : OverrideState, mapGet st1.recent T = some [P] →
        mapGet (fireTimer st1 T P).recent T = none) := by
  have h1 : P ∈ setOf (rememberRecentlyAdded t0 st T P).recent T := by
    rw [setOf_remember_self]
    exact mem_setAdd_self _ P
  have h2 : (t0 + OVERRIDE_EXPIRY_MS, T, P)
      ∈ (rememberRecentlyAdded t0 st T P).timers := by
    unfold rememberRecentlyAdded
    exact List.mem_append_right _ (List.mem_singleton.mpr rfl)
  have h3 : P ∈ setOf (ovRun evs1 (rememberRecentlyAdded t0 st T P)).recent T :=
    mem_ovRun evs1 _ T P h1fire h1
  have hinvPre : OvInv (ovRun evs1 (rememberRecentlyAdded t0 st T P)) :=
    ovInv_run evs1 _ (ovInv_remember t0 st T P hinv)
  have h4 : P ∉ setOf (ovRun evs2 (fireTimer
      (ovRun evs1 (rememberRecentlyAdded t0 st T P)) T P)).recent T :=
    notMem_ovRun evs2 _ T P h2add (fire_removes _ T P hinvPre)
  refine ⟨h1, h2, h3, h4, ?_, ?_⟩
  · intro base hbase
    exact foldl_setAdd_not_mem _ P base hbase h4
  · intro st1 hst1
    simp only [fireTimer, hst1, List.erase_cons_head, List.isEmpty_nil,
      if_true]
    exact mapGet_delete_self st1.recent T

theorem overlay_entry_expires_witness :
    "p" ∈ setOf (rememberRecentlyAdded 0 emptyOverrides "t" "p").recent "t"
    ∧ (120000, "t", "p")
        ∈ (rememberRecentlyAdded 0 emptyOverrides "t" "p").timers
    ∧ "p" ∈ setOf (ovRun [OvEvent.add 5 "t" "q"]
        (rememberRecentlyAdded 0 emptyOverrides "t" "p")).recent "t"
    ∧ "p" ∉ setOf (ovRun [OvEvent.fire "t" "q"] (fireTimer
        (ovRun [OvEvent.add 5 "t" "q"]
          (rememberRecentlyAdded 0 emptyOverrides "t" "p")) "t" "p")).recent "t"
    ∧ "p" ∉ overlayUnion (ovRun [OvEvent.fire "t" "q"] (fireTimer
        (ovRun [OvEvent.add 5 "t" "q"]
          (rememberRecentlyAdded 0 emptyOverrides "t" "p")) "t" "p")).recent
        "t" []
    ∧ mapGet (fireTimer ovSingle "t" "p").recent "t" = none := by
  have h := overlay_entry_expires emptyOverrides 0 "t" "p"
    [OvEvent.add 5 "t" "q"] [OvEvent.fire "t" "q"]
    (by intro t s1 hs; exact absurd hs (by simp [emptyOverrides, mapGet]))
    (by decide)
    (by intro t; simp)
  exact ⟨h.1, h.2.1, h.2.2.1, h.2.2.2.1,
         h.2.2.2.2.1 [] (List.not_mem_nil "p"),
         h.2.2.2.2.2 ovSingle (by decide)⟩

end LunaPlugin
